import Mathlib

/-!
Shallow embedding of the POS backend core (inventory stock reconciliation and
cash-register session management) of `sistema-pos-venta-postgres`.

Source files embedded:
- `Backend/src/inventory.service.ts` (`InventoryService`)
- `Backend/src/inventory.controller.ts` (`InventoryController`)
- `Backend/src/cash-register.service.ts` (`CashRegisterService`)

Modelling conventions:
- JavaScript runtime values that flow through untyped positions (`any`,
  JSON-decoded request bodies) are modelled by the inductive `JVal`.
- JS numbers are modelled as rationals (`Rat`); the claims never depend on
  binary floating-point rounding, only on exact comparisons and sums.
  `NaN` that flows out of `parseFloat` is modelled by `Option.none`.
- The PostgreSQL store is modelled as explicit record lists inside a state
  structure; `crypto.randomUUID` freshness is modelled by a counter, and
  SQL `NOW()` by a logical clock carried in the state.
- Thrown JS exceptions are modelled with `Option`/`Except`: `none`/`.error`
  means the operation raised before performing the writes that follow it.
-/

namespace POS

/-- JavaScript runtime value occurring in the untyped positions the embedded
functions read.  `vsize` models a plain object carrying the two fields
(`size`, `quantity`) that the inventory code accesses; `varr` values only
occur as the top-level sizes argument (see `SizesArg`). -/
inductive JVal where
  | vnum (q : Rat)
  | vstr (s : String)
  | vbool (b : Bool)
  | vnull
  | vundefined
  | vsize (sz : JVal) (qty : JVal)
  deriving DecidableEq, Repr

/-- JavaScript truthiness of a `JVal` (objects are always truthy, `0`, the
empty string, `false`, `null` and `undefined` are falsy). -/
def JVal.truthy : JVal → Bool
  | .vnum q => q != 0
  | .vstr s => s != ""
  | .vbool b => b
  | .vnull => false
  | .vundefined => false
  | .vsize _ _ => true

/-- Test for the JS value `undefined`. -/
def JVal.isUndefinedV : JVal → Bool
  | .vundefined => true
  | _ => false

/-- Test for the JS value `null`. -/
def JVal.isNull : JVal → Bool
  | .vnull => true
  | _ => false

/-- Test for the JS empty string (`=== ''` is only true on strings). -/
def JVal.isEmptyStr : JVal → Bool
  | .vstr s => s == ""
  | _ => false

/-- Strict equality of a `JVal` against a string literal. -/
def JVal.eqStr (v : JVal) (s : String) : Bool :=
  match v with
  | .vstr t => t == s
  | _ => false

/-- Numeric value of a decimal digit character. -/
def digitVal (c : Char) : Nat := c.toNat - 48

/-- Consume the longest leading run of decimal digits, returning how many
digits were consumed and the accumulated value. -/
def digitsPrefix : List Char → Nat → Nat → Nat × Nat
  | [], cnt, acc => (cnt, acc)
  | c :: cs, cnt, acc =>
    if c.isDigit then digitsPrefix cs (cnt + 1) (acc * 10 + digitVal c)
    else (cnt, acc)

/-- Drop leading JS whitespace, as `parseInt`/`parseFloat` do. -/
def skipWs : List Char → List Char
  | [] => []
  | c :: cs => if c = ' ' ∨ c = '\t' ∨ c = '\n' ∨ c = '\r' then skipWs cs else c :: cs

/-- Split an optional leading sign, returning whether the value is negated. -/
def splitSign : List Char → Bool × List Char
  | '-' :: rest => (true, rest)
  | '+' :: rest => (false, rest)
  | cs => (false, cs)

/-- JS `parseInt(s)` (radix 10): leading whitespace, optional sign, then the
longest decimal-digit prefix; `none` models `NaN` (no digit found).
Hexadecimal `0x` prefixes are outside the modelled input domain. -/
def jsParseIntStr (s : String) : Option Int :=
  let cs := skipWs s.toList
  let (neg, cs) := splitSign cs
  let (cnt, v) := digitsPrefix cs 0 0
  if cnt = 0 then none
  else some (if neg then -(v : Int) else (v : Int))

/-- Truncation toward zero, matching how `parseInt` reads the decimal
rendering of a JS number in the modelled magnitude range. -/
def jsTrunc (q : Rat) : Int := if 0 ≤ q then q.floor else q.ceil

/-- JS `parseInt` applied to a runtime value: the argument is coerced to a
string first, so numbers yield their truncation, while booleans, `null`,
`undefined` and plain objects stringify to text with no digit prefix
(`NaN`, modelled as `none`). -/
def jsParseInt : JVal → Option Int
  | .vnum q => some (jsTrunc q)
  | .vstr s => jsParseIntStr s
  | _ => none

/-- JS `parseFloat(s)`: leading whitespace, optional sign, digits with an
optional fractional part; at least one digit overall is required.  Exponent
suffixes are outside the modelled input domain.  `none` models `NaN`. -/
def jsParseFloatStr (s : String) : Option Rat :=
  let cs := skipWs s.toList
  let (neg, cs) := splitSign cs
  let (icnt, iv) := digitsPrefix cs 0 0
  let rest := cs.drop icnt
  match rest with
  | '.' :: frac =>
    let (fcnt, fv) := digitsPrefix frac 0 0
    if icnt = 0 ∧ fcnt = 0 then none
    else
      let mag : Rat := (iv : Rat) + (fv : Rat) / ((10 : Rat) ^ fcnt)
      some (if neg then -mag else mag)
  | _ =>
    if icnt = 0 then none
    else some (if neg then -(iv : Rat) else (iv : Rat))

/-- JS `parseFloat` applied to a runtime value; numbers pass through,
booleans, `null`, `undefined` and plain objects give `NaN` (`none`). -/
def jsParseFloat : JVal → Option Rat
  | .vnum q => some q
  | .vstr s => jsParseFloatStr s
  | _ => none

/-- Size variant supplied by a caller: an object with a `size` label and an
arbitrary runtime value in `quantity` (the source types it `number` but the
value arrives unchecked from the request body). -/
structure SizeInput where
  size : String
  quantity : JVal
  deriving DecidableEq, Repr

/-- Request-body/product-input record carried through the controller and
service layers.  Fields the embedded code reads through JS truthiness or
strict comparisons are kept as `JVal`; `stock`, `sizes` are restricted to
their shape-correct domains used by the claims. -/
structure ProductBody where
  name : JVal
  sku : JVal
  cost : JVal
  price : JVal
  stock : Option Int
  category : JVal
  productType : JVal
  barcode : JVal
  minStock : JVal
  hasSizes : JVal
  sizeType : JVal
  sizes : Option (List SizeInput)
  deriving DecidableEq, Repr

/-- Result record of `InventoryService.validateProductData`
(`{ isValid, error? }`). -/
inductive ValidationResult where
  | valid
  | invalid (error : String)
  deriving DecidableEq, Repr

/-- Embedding of `InventoryService.validateProductData`
(`inventory.service.ts`, lines 59-86).  Note the required-field test uses JS
truthiness for `name`, `sku`, `category`, `productType`, but only
`=== undefined || === null` for `price`. -/
def validateProductData (d : ProductBody) : ValidationResult :=
  if !d.name.truthy || !d.sku.truthy || d.price.isUndefinedV || d.price.isNull
      || !d.category.truthy || !d.productType.truthy then
    .invalid "Campos obligatorios faltantes (name, sku, price, category, productType)"
  else if !(d.productType.eqStr "ropa" || d.productType.eqStr "otros") then
    .invalid "productType inválido"
  else
    match jsParseFloat d.price with
    | none => .invalid "Precio inválido"
    | some parsedPrice =>
      if parsedPrice ≤ 0 then .invalid "Precio inválido"
      else if d.cost.isUndefinedV || d.cost.isNull || d.cost.isEmptyStr then .valid
      else
        match jsParseFloat d.cost with
        | none => .invalid "Costo inválido"
        | some parsedCost =>
          if parsedCost < 0 then .invalid "Costo inválido"
          else .valid

/-- Runtime value passed in the `sizes` position of `calculateTotalStock`,
partitioned by whether it is a JS array (which is what `Array.isArray`
tests). -/
inductive SizesArg where
  | scalar (v : JVal)
  | arr (elems : List JVal)
  deriving DecidableEq, Repr

/-- Property access `size.quantity` inside the `reduce` callback: it throws a
`TypeError` (modelled by `none`) when the element is `null` or `undefined`,
yields the field for objects, and `undefined` for other primitives. -/
def getQuantity : JVal → Option JVal
  | .vnull => none
  | .vundefined => none
  | .vsize _ q => some q
  | _ => some .vundefined

/-- Left-to-right sum of `parseInt(size.quantity) || 0` over the array
elements; `none` models the `TypeError` thrown at the first `null` or
`undefined` element. -/
def sumQuantities : List JVal → Option Int
  | [] => some 0
  | v :: rest => do
    let q ← getQuantity v
    let tail ← sumQuantities rest
    pure ((jsParseInt q).getD 0 + tail)

/-- Embedding of `InventoryService.calculateTotalStock`
(`inventory.service.ts`, lines 93-102).  `baseStock : Option Int` models the
`number` parameter with `none` for `undefined`; `baseStock || 0` collapses
both `undefined` and `0` to `0`, which `Option.getD 0` captures exactly.
`none` in the result models a thrown `TypeError`. -/
def calculateTotalStock (hasSizes : Bool) (sizes : SizesArg) (baseStock : Option Int) :
    Option Int :=
  match sizes with
  | .arr elems =>
    if !hasSizes || elems.isEmpty then some (baseStock.getD 0)
    else sumQuantities elems
  | .scalar _ => some (baseStock.getD 0)

/-- Embedding of `InventoryService.parseCost`
(`inventory.service.ts`, lines 108-115): `null` for absent/empty/`NaN`. -/
def parseCost (cost : JVal) : Option Rat :=
  if cost.isUndefinedV || cost.isNull || cost.isEmptyStr then none
  else jsParseFloat cost

/-- Row of the `products` table.  `id` is a `Nat` drawn from a freshness
counter (modelling `crypto.randomUUID`); `price`/`cost` are `Option Rat`
with `none` modelling SQL `NULL` or a stored `NaN`; the fields the code
writes through unchecked (`name`, `sku`, …) keep their runtime value. -/
structure ProductRow where
  id : Nat
  name : JVal
  sku : JVal
  cost : Option Rat
  price : Option Rat
  stock : Int
  category : JVal
  productType : JVal
  barcode : JVal
  minStock : JVal
  hasSizes : Bool
  sizeType : JVal
  deriving DecidableEq, Repr

/-- Row of the `product_sizes` table; `quantity` is the integer the source
writes after `parseInt(String(q)) || 0`. -/
structure SizeRow where
  productId : Nat
  size : String
  quantity : Int
  deriving DecidableEq, Repr

/-- State of the inventory store: the two tables plus the id-freshness
counter. -/
structure InvState where
  products : List ProductRow
  productSizes : List SizeRow
  nextId : Nat
  deriving DecidableEq, Repr

/-- Empty inventory store. -/
def invInit : InvState := { products := [], productSizes := [], nextId := 0 }

/-- Typed input record of `InventoryService.createProduct` /
`updateProduct` (the parameter object built by the controller):
`cost`/`price` already parsed (`none` models `null`/`NaN`), `stock` an
integer, `sizes` an optional list of shape-correct variant objects. -/
structure ProductInput where
  name : JVal
  sku : JVal
  cost : Option Rat
  price : Option Rat
  stock : Int
  category : JVal
  productType : JVal
  barcode : JVal
  minStock : JVal
  hasSizes : Bool
  sizeType : JVal
  sizes : Option (List SizeInput)
  deriving DecidableEq, Repr

/-- Conversion of the typed `sizes` field into the runtime value consumed by
`calculateTotalStock` (an absent list is `undefined`, a present one is an
array of `{size, quantity}` objects). -/
def sizesToArg : Option (List SizeInput) → SizesArg
  | none => .scalar .vundefined
  | some l => .arr (l.map fun sz => .vsize (.vstr sz.size) sz.quantity)

/-- Quantity actually written by `insertSizeVariants`:
`parseInt(String(size.quantity)) || 0` (coercing to string first is what
`parseInt` does with any argument, so this is `jsParseInt`). -/
def coercedQuantity (q : JVal) : Int := (jsParseInt q).getD 0

/-- Sum of the coerced quantities of a variant list. -/
def variantSum (l : List SizeInput) : Int :=
  (l.map fun sz => coercedQuantity sz.quantity).sum

/-- Total stock computed by `createProduct`/`updateProduct` on their typed
input; `calculateTotalStock_on_input` below proves this is exactly the
embedded `calculateTotalStock` applied to that input. -/
def totalStockOfInput (hasSizes : Bool) (sizes : Option (List SizeInput)) (base : Int) : Int :=
  match sizes with
  | some l => if hasSizes ∧ l ≠ [] then variantSum l else base
  | none => base

/-- Evaluation `barcode || null` / `sizeType || null` performed by the SQL
parameter lists. -/
def jsOrNull (v : JVal) : JVal := if v.truthy then v else .vnull

/-- Evaluation `minStock ?? 0` performed by the SQL parameter lists. -/
def nullishZero (v : JVal) : JVal :=
  if v.isNull || v.isUndefinedV then .vnum 0 else v

/-- Embedding of `InventoryService.insertSizeVariants`
(`inventory.service.ts`, lines 276-283): one `INSERT` per supplied variant,
in order. -/
def insertSizeVariants (s : InvState) (productId : Nat) (sizes : List SizeInput) : InvState :=
  { s with productSizes := s.productSizes ++ sizes.map fun sz =>
      { productId := productId, size := sz.size, quantity := coercedQuantity sz.quantity } }

/-- Embedding of `InventoryService.createProduct`
(`inventory.service.ts`, lines 170-216): compute the total stock, insert the
product row, then — iff size-tracked with a non-empty list — insert the
variant rows.  Returns the fresh product id with the new state.
`newProductRow` is the column list of the `INSERT INTO products` statement
(`size_type` is nulled for non-size-tracked products on this path). -/
def newProductRow (productId : Nat) (d : ProductInput) (totalStock : Int) : ProductRow :=
  { id := productId, name := d.name, sku := d.sku, cost := d.cost, price := d.price,
    stock := totalStock, category := d.category, productType := d.productType,
    barcode := jsOrNull d.barcode, minStock := nullishZero d.minStock,
    hasSizes := d.hasSizes,
    sizeType := if d.hasSizes then jsOrNull d.sizeType else .vnull }

def createProduct (s : InvState) (d : ProductInput) : Nat × InvState :=
  let totalStock := totalStockOfInput d.hasSizes d.sizes d.stock
  let productId := s.nextId
  let s1 : InvState :=
    { products := s.products ++ [newProductRow productId d totalStock],
      productSizes := s.productSizes, nextId := s.nextId + 1 }
  match d.sizes with
  | some l =>
    if d.hasSizes ∧ l ≠ [] then (productId, insertSizeVariants s1 productId l)
    else (productId, s1)
  | none => (productId, s1)

/-- Field assignments of the `UPDATE products SET …` statement in
`updateProduct`: every column except `id` is overwritten. -/
def updatedRow (d : ProductInput) (totalStock : Int) (p : ProductRow) : ProductRow :=
  { p with
    name := d.name, sku := d.sku, cost := d.cost, price := d.price,
    stock := totalStock, category := d.category, productType := d.productType,
    barcode := jsOrNull d.barcode, minStock := nullishZero d.minStock,
    hasSizes := d.hasSizes, sizeType := jsOrNull d.sizeType }

/-- Embedding of `InventoryService.updateProduct`
(`inventory.service.ts`, lines 221-271): overwrite the product row, then
unconditionally delete all existing variants for the product, then — iff
size-tracked with a non-empty list — re-insert the supplied list. -/
def updateProduct (s : InvState) (productId : Nat) (d : ProductInput) : InvState :=
  let totalStock := totalStockOfInput d.hasSizes d.sizes d.stock
  let s1 : InvState :=
    { s with products := s.products.map fun p =>
        if p.id = productId then updatedRow d totalStock p else p }
  let s2 : InvState :=
    { s1 with productSizes := s1.productSizes.filter fun r => r.productId ≠ productId }
  match d.sizes with
  | some l => if d.hasSizes ∧ l ≠ [] then insertSizeVariants s2 productId l else s2
  | none => s2

/-- Embedding of `InventoryService.updateStockSimple`
(`inventory.service.ts`, lines 288-293): the `WHERE` clause of the single
`UPDATE` carries both the id match and `has_sizes = false`, so the guard is
part of the storage-write predicate. -/
def updateStockSimple (s : InvState) (productId : Nat) (quantity : Int) : InvState :=
  { s with products := s.products.map fun p =>
      if p.id = productId ∧ p.hasSizes = false then { p with stock := p.stock + quantity }
      else p }

/-- Value of `SELECT SUM(quantity) FROM product_sizes WHERE product_id = $1`
followed by `|| 0` (SQL `NULL` on zero rows collapses to `0`, as does an
actual zero sum). -/
def sumSizesFor (s : InvState) (productId : Nat) : Int :=
  ((s.productSizes.filter fun r => r.productId = productId).map SizeRow.quantity).sum

/-- Embedding of `InventoryService.updateStockBySize`
(`inventory.service.ts`, lines 299-314): add the delta to the matching
variant row (a no-op if none matches), then overwrite the product's stock
with the sum of all its variant rows — with no `has_sizes` guard on the
final `UPDATE`. -/
def updateStockBySize (s : InvState) (productId : Nat) (size : String) (quantity : Int) :
    InvState :=
  let s1 : InvState :=
    { s with productSizes := s.productSizes.map fun r =>
        if r.productId = productId ∧ r.size = size then
          { r with quantity := r.quantity + quantity }
        else r }
  let totalStock := sumSizesFor s1 productId
  { s1 with products := s1.products.map fun p =>
      if p.id = productId then { p with stock := totalStock } else p }

/-- Lexicographic code-point comparison of character lists (the order the
store's `ORDER BY` delivers on the modelled label strings). -/
def charsLe : List Char → List Char → Bool
  | [], _ => true
  | _ :: _, [] => false
  | a :: as, b :: bs =>
    if a.toNat < b.toNat then true
    else if b.toNat < a.toNat then false
    else charsLe as bs

/-- Code-point order on strings. -/
def strLe (a b : String) : Bool := charsLe a.toList b.toList

/-- Insert into a sorted list, keeping existing elements first on ties. -/
def insertSorted {α : Type} (le : α → α → Bool) (a : α) : List α → List α
  | [] => [a]
  | b :: l => if le a b then a :: b :: l else b :: insertSorted le a l

/-- Stable insertion sort by a Bool comparison (models SQL `ORDER BY`). -/
def insertionSortBy {α : Type} (le : α → α → Bool) : List α → List α
  | [] => []
  | a :: l => insertSorted le a (insertionSortBy le l)

/-- Size pair as returned by
`SELECT size, quantity FROM product_sizes … ORDER BY size`. -/
structure SizePair where
  size : String
  quantity : Int
  deriving DecidableEq, Repr

/-- Variant rows of one product, ordered by size label (`ORDER BY size`). -/
def sizesForProduct (s : InvState) (productId : Nat) : List SizePair :=
  insertionSortBy (fun a b => strLe a.size b.size)
    ((s.productSizes.filter fun r => r.productId = productId).map fun r =>
      ({ size := r.size, quantity := r.quantity } : SizePair))

/-- Product record returned to API callers by `mapProductFromDB`. -/
structure ProductView where
  id : Nat
  name : JVal
  sku : JVal
  cost : Option Rat
  price : Option Rat
  stock : Int
  category : JVal
  productType : JVal
  barcode : Option JVal
  minStock : Option Rat
  hasSizes : Bool
  sizeType : Option JVal
  sizes : Option (List SizePair)
  deriving DecidableEq, Repr

/-- Embedding of `InventoryService.mapProductFromDB`
(`inventory.service.ts`, lines 121-140).  The truthiness test
`product.cost ? parseFloat(product.cost) : undefined` turns a stored `0`
cost into `undefined`; `stock` is passed through raw. -/
def mapProductFromDB (p : ProductRow) (sizes : Option (List SizePair)) : ProductView :=
  { id := p.id, name := p.name, sku := p.sku,
    cost := match p.cost with
      | some c => if c = 0 then none else some c
      | none => none,
    price := p.price,
    stock := p.stock,
    category := p.category, productType := p.productType,
    barcode := if p.barcode.truthy then some p.barcode else none,
    minStock := if p.minStock.isNull || p.minStock.isUndefinedV then none
      else jsParseFloat p.minStock,
    hasSizes := p.hasSizes,
    sizeType := if p.sizeType.truthy then some p.sizeType else none,
    sizes := sizes }

/-- Embedding of `InventoryService.getProductWithSizes`
(`inventory.service.ts`, lines 145-164): fetch the product row, fetch its
ordered variant rows iff `has_sizes`, and map them to the API record. -/
def getProductWithSizes (s : InvState) (productId : Nat) : Option ProductView :=
  match s.products.find? fun p => p.id == productId with
  | none => none
  | some p =>
    let sizes := if p.hasSizes then some (sizesForProduct s productId) else none
    some (mapProductFromDB p sizes)

/-- Outcome of a controller call (the response the handler sends). -/
inductive CtrlOutcome where
  | badRequest (message : String)
  | created (id : Nat)
  | updated
  deriving DecidableEq, Repr

/-- Service-input record the controller builds from the request body:
`parseCost(cost)`, `parseFloat(price)`, `stock || 0`, and the boolean
coercion of `hasSizes` (`!!hasSizes` on create, `hasSizes || false` on
update — both reduce to truthiness on the modelled domain). -/
def toServiceInput (body : ProductBody) : ProductInput :=
  { name := body.name, sku := body.sku, cost := parseCost body.cost,
    price := jsParseFloat body.price, stock := body.stock.getD 0,
    category := body.category, productType := body.productType,
    barcode := body.barcode, minStock := body.minStock,
    hasSizes := body.hasSizes.truthy, sizeType := body.sizeType,
    sizes := body.sizes }

/-- Embedding of `InventoryController.createProduct`
(`inventory.controller.ts`, lines 106-152): validate the body first, answer
400 with the specific reason and perform no write on failure; otherwise
delegate to the service layer. -/
def ctrlCreateProduct (s : InvState) (body : ProductBody) : CtrlOutcome × InvState :=
  match validateProductData body with
  | .invalid msg => (.badRequest msg, s)
  | .valid =>
    let (productId, s1) := createProduct s (toServiceInput body)
    (.created productId, s1)

/-- Embedding of `InventoryController.updateProduct`
(`inventory.controller.ts`, lines 158-197): despite its doc comment
("Validates input, delegates update to service layer"), the handler never
calls `validateProductData`; it builds the service input from the raw body
and performs the update unconditionally. -/
def ctrlUpdateProduct (s : InvState) (productId : Nat) (body : ProductBody) :
    CtrlOutcome × InvState :=
  (.updated, updateProduct s productId (toServiceInput body))

/-- Status column of `cash_registers` (`'abierta'` = Open,
`'cerrada'` = Closed). -/
inductive RegStatus where
  | abierta
  | cerrada
  deriving DecidableEq, Repr

/-- Type column of `cash_movements` (`'entrada'` = Inflow,
`'salida'` = Outflow). -/
inductive MovType where
  | entrada
  | salida
  deriving DecidableEq, Repr

/-- Row of the `cash_registers` table.  Ids come from a freshness counter
(modelling `crypto.randomUUID`), timestamps from the logical clock
(modelling `NOW()`); the closing columns are SQL `NULL` until the register
is closed. -/
structure Register where
  id : Nat
  userId : String
  openingBalance : Rat
  closingBalance : Option Rat
  expectedBalance : Option Rat
  difference : Option Rat
  status : RegStatus
  openedAt : Nat
  closedAt : Option Nat
  closedByUserId : Option String
  deriving DecidableEq, Repr

/-- Row of the `cash_movements` table. -/
structure Movement where
  id : Nat
  registerId : Nat
  userId : String
  movType : MovType
  amount : Rat
  conceptText : String
  date : Nat
  deriving DecidableEq, Repr

/-- State of the cash-register store: the two tables, the id-freshness
counter and the logical clock. -/
structure CashState where
  registers : List Register
  movements : List Movement
  nextId : Nat
  now : Nat
  deriving DecidableEq, Repr

/-- State with no registers and no movements. -/
def cashInit : CashState := { registers := [], movements := [], nextId := 0, now := 0 }

/-- Rows returned by
`SELECT * FROM cash_registers WHERE user_id = $1 AND status = 'abierta'`. -/
def openRegistersFor (s : CashState) (userId : String) : List Register :=
  s.registers.filter fun r => r.userId == userId && r.status == RegStatus.abierta

/-- Number of Open registers a user has. -/
def openCountFor (s : CashState) (userId : String) : Nat :=
  (openRegistersFor s userId).length

/-- Embedding of `CashRegisterService.openRegister`
(`cash-register.service.ts`, lines 85-112): fail when the user already has
an Open register, otherwise insert the new register row and its synthetic
opening movement and return the fresh register id. -/
def openRegister (s : CashState) (userId : String) (openingBalance : Rat) :
    Except String (Nat × CashState) :=
  if 0 < (openRegistersFor s userId).length then
    .error "Ya tienes una caja abierta"
  else
    let registerId := s.nextId
    let reg : Register :=
      { id := registerId, userId := userId, openingBalance := openingBalance,
        closingBalance := none, expectedBalance := none, difference := none,
        status := RegStatus.abierta, openedAt := s.now, closedAt := none,
        closedByUserId := none }
    let movementId := s.nextId + 1
    let mov : Movement :=
      { id := movementId, registerId := registerId, userId := userId,
        movType := MovType.entrada, amount := openingBalance,
        conceptText := "Apertura de caja", date := s.now }
    .ok (registerId,
      { registers := s.registers ++ [reg], movements := s.movements ++ [mov],
        nextId := s.nextId + 2, now := s.now })

/-- Column assignments of the single
`UPDATE cash_registers SET status = 'cerrada', …` statement. -/
def closedRegister (r : Register) (userId : String) (closingBalance expectedBalance : Rat)
    (now : Nat) : Register :=
  { r with
    status := RegStatus.cerrada, closedAt := some now,
    closingBalance := some closingBalance, expectedBalance := some expectedBalance,
    difference := some (closingBalance - expectedBalance),
    closedByUserId := some userId }

/-- Embedding of `CashRegisterService.closeRegister`
(`cash-register.service.ts`, lines 124-145): fail when the user has no Open
register; otherwise take the first Open register returned, compute
`difference = closingBalance - expectedBalance`, and set all closing
columns in one `UPDATE` on that row's id. -/
def closeRegister (s : CashState) (userId : String)
    (closingBalance expectedBalance : Rat) : Except String CashState :=
  match openRegistersFor s userId with
  | [] => .error "No tienes una caja abierta"
  | r0 :: _ =>
    let registerId := r0.id
    .ok { s with registers := s.registers.map fun r =>
        if r.id = registerId then
          closedRegister r userId closingBalance expectedBalance s.now
        else r }

/-- Embedding of `CashRegisterService.addMovement`
(`cash-register.service.ts`, lines 188-212): fail when the user has no Open
register, otherwise append a movement row against it. -/
def addMovement (s : CashState) (userId : String) (movType : MovType) (amount : Rat)
    (conceptText : String) : Except String (Nat × CashState) :=
  match openRegistersFor s userId with
  | [] => .error "No tienes una caja abierta"
  | r0 :: _ =>
    let movementId := s.nextId
    let mov : Movement :=
      { id := movementId, registerId := r0.id, userId := userId, movType := movType,
        amount := amount, conceptText := conceptText, date := s.now }
    .ok (movementId,
      { s with movements := s.movements ++ [mov], nextId := s.nextId + 1 })

/-- Request against the cash-register service, for forming call traces. -/
inductive CashOp where
  | openR (userId : String) (openingBalance : Rat)
  | closeR (userId : String) (closingBalance expectedBalance : Rat)
  | moveR (userId : String) (movType : MovType) (amount : Rat) (conceptText : String)
  deriving DecidableEq, Repr

/-- One request applied to the store: a thrown error performs none of the
writes that follow the failed check (every check precedes every write in
the source), so the state is unchanged; the logical clock advances either
way. -/
def applyOp (s : CashState) (op : CashOp) : CashState :=
  let s1 := match op with
    | .openR u b =>
      match openRegister s u b with
      | .ok (_, t) => t
      | .error _ => s
    | .closeR u cb eb =>
      match closeRegister s u cb eb with
      | .ok t => t
      | .error _ => s
    | .moveR u ty a c =>
      match addMovement s u ty a c with
      | .ok (_, t) => t
      | .error _ => s
  { s1 with now := s1.now + 1 }

/-- State reached by a call trace starting from the empty store. -/
def runOps (ops : List CashOp) : CashState := ops.foldl applyOp cashInit

/-- API record built by `getCurrentRegister` and `getHistory`. -/
structure CashRegisterView where
  id : Nat
  userId : String
  openingBalance : Rat
  closingBalance : Option Rat
  expectedBalance : Option Rat
  difference : Option Rat
  status : RegStatus
  openedAt : Nat
  closedAt : Option Nat
  openedByName : Option String
  closedByName : Option String
  deriving DecidableEq, Repr

/-- Truthiness-then-parse mapping
`row.x ? parseFloat(row.x) : undefined` applied to a numeric-or-NULL
column: the storage collaborator (`./db`, not part of the sources) is
modelled as delivering SQL numerics as their numeric values and SQL `NULL`
as `null`, so a stored `0` is falsy and maps to `undefined`. -/
def numericOrAbsent (v : Option Rat) : Option Rat :=
  match v with
  | some x => if x = 0 then none else some x
  | none => none

/-- Row-to-record mapping of `CashRegisterService.getCurrentRegister`
(`cash-register.service.ts`, lines 60-71); the name columns are not
selected there. -/
def mapRegisterRow (r : Register) : CashRegisterView :=
  { id := r.id, userId := r.userId, openingBalance := r.openingBalance,
    closingBalance := numericOrAbsent r.closingBalance,
    expectedBalance := numericOrAbsent r.expectedBalance,
    difference := numericOrAbsent r.difference,
    status := r.status, openedAt := r.openedAt, closedAt := r.closedAt,
    openedByName := none, closedByName := none }

/-- Row-to-record mapping of `CashRegisterService.getHistory`
(`cash-register.service.ts`, lines 232-244), with the two joined user
names. -/
def mapHistoryRow (r : Register) (openedByName closedByName : Option String) :
    CashRegisterView :=
  { mapRegisterRow r with openedByName := openedByName, closedByName := closedByName }

/-- Embedding of `CashRegisterService.getCurrentRegister`
(`cash-register.service.ts`, lines 50-72): the user's Open registers,
newest-opened first, limited to one, mapped to the API record. -/
def getCurrentRegister (s : CashState) (userId : String) : Option CashRegisterView :=
  match insertionSortBy (fun a b => decide (b.openedAt ≤ a.openedAt))
      (openRegistersFor s userId) with
  | [] => none
  | r :: _ => some (mapRegisterRow r)

/-- Embedding of `CashRegisterService.getHistory`
(`cash-register.service.ts`, lines 219-245): all Closed registers, newest
closed first, joined against the user collaborator `userName` (a `LEFT
JOIN`, so a missing user gives a `NULL` name) for the opened-by and
closed-by display names. -/
def getHistory (s : CashState) (userName : String → Option String) :
    List CashRegisterView :=
  ((insertionSortBy (fun a b => decide (b.closedAt.getD 0 ≤ a.closedAt.getD 0))
      (s.registers.filter fun r => r.status == RegStatus.cerrada)).map
    fun r => mapHistoryRow r (userName r.userId) (r.closedByUserId.bind userName))

/-! Helper lemmas. -/

/-- Shape-correct variant lists never hit the throwing property access, and
their summed contribution is `variantSum`. -/
lemma sumQuantities_map_sizes (l : List SizeInput) :
    sumQuantities (l.map fun sz => JVal.vsize (.vstr sz.size) sz.quantity)
      = some (variantSum l) := by
  induction l with
  | nil => rfl
  | cons a t ih =>
    simp [sumQuantities, getQuantity, ih, variantSum, coercedQuantity]

/-- The total stock `createProduct`/`updateProduct` persist is exactly the
embedded `calculateTotalStock` applied to their input. -/
lemma calculateTotalStock_on_input (hs : Bool) (sizes : Option (List SizeInput)) (base : Int) :
    calculateTotalStock hs (sizesToArg sizes) (some base)
      = some (totalStockOfInput hs sizes base) := by
  cases sizes with
  | none => cases hs <;> rfl
  | some l =>
    cases hs with
    | false => simp [sizesToArg, calculateTotalStock, totalStockOfInput]
    | true =>
      cases l with
      | nil => simp [sizesToArg, calculateTotalStock, totalStockOfInput]
      | cons a t =>
        simp [sizesToArg, calculateTotalStock, totalStockOfInput,
          ← sumQuantities_map_sizes]

/-- Value of the object-field access performed on a non-throwing variant
element: the `quantity` field for objects, `undefined` for other
primitives. -/
def jsQuantityField : JVal → JVal
  | .vsize _ q => q
  | _ => .vundefined

lemma getQuantity_of_not_nullish {v : JVal} (h1 : v ≠ .vnull) (h2 : v ≠ .vundefined) :
    getQuantity v = some (jsQuantityField v) := by
  cases v <;> simp_all [getQuantity, jsQuantityField]

/-- The summation raises exactly when some element is `null` or
`undefined`. -/
lemma sumQuantities_eq_none_iff (l : List JVal) :
    sumQuantities l = none ↔ ∃ v ∈ l, v = .vnull ∨ v = .vundefined := by
  induction l with
  | nil => simp [sumQuantities]
  | cons a t ih =>
    by_cases ha : a = .vnull ∨ a = .vundefined
    · constructor
      · intro _
        exact ⟨a, List.mem_cons_self a t, ha⟩
      · intro _
        rcases ha with h | h <;> subst h <;> rfl
    · push_neg at ha
      rw [sumQuantities, getQuantity_of_not_nullish ha.1 ha.2]
      constructor
      · intro h
        rcases htail : sumQuantities t with _ | n
        · rcases ih.mp htail with ⟨v, hv, hx⟩
          exact ⟨v, List.mem_cons_of_mem a hv, hx⟩
        · rw [htail] at h
          simp at h
      · rintro ⟨v, hv, hnull⟩
        rcases List.mem_cons.mp hv with h | h
        · subst h
          exact absurd hnull (by simpa using ha)
        · have : sumQuantities t = none := ih.mpr ⟨v, h, hnull⟩
          simp [this]

/-- When no element is nullish the summation succeeds with the coerced
quantities' sum. -/
lemma sumQuantities_eq_some (l : List JVal) (h : ∀ v ∈ l, v ≠ .vnull ∧ v ≠ .vundefined) :
    sumQuantities l
      = some ((l.map fun v => (jsParseInt (jsQuantityField v)).getD 0).sum) := by
  induction l with
  | nil => rfl
  | cons a t ih =>
    have ha := h a (List.mem_cons_self a t)
    rw [sumQuantities, getQuantity_of_not_nullish ha.1 ha.2,
      ih fun v hv => h v (List.mem_cons_of_mem a hv)]
    rfl

/-! Claim C6. -/

/-- C6 counterexample: the claim fails on the code in two ways.  First,
`calculateTotalStock(true, [null], 5)` raises a `TypeError` (the `reduce`
callback reads `size.quantity` off a `null` element), contradicting "it
never raises on malformed input".  Second, with a single variant whose
quantity is the non-numeric string `"2abc"`, the sum is `2` — `parseInt`
takes the leading-integer prefix — contradicting "every non-numeric or
missing quantity contributing 0". -/
theorem c6_counterexample :
    calculateTotalStock true (.arr [.vnull]) (some 5) = none
    ∧ calculateTotalStock true (.arr [.vsize (.vstr "S") (.vstr "2abc")]) (some 5)
        = some 2 :=
  ⟨rfl, rfl⟩

/-- C6 (amended): `calculateTotalStock(sizeTracked, variants, fallbackStock)`
returns `fallbackStock` (a missing fallback treated as `0`) whenever
`sizeTracked` is false or the variant list is absent, not a list, or empty;
otherwise it sums the variants' quantities coerced with `parseInt`
(integer-prefix parsing, so a quantity that fails to parse contributes `0`
while a malformed string with a leading integer contributes that integer),
and it raises (`none`) exactly when some variant element is `null` or
`undefined`. -/
theorem c6_calculateTotalStock_spec :
    (∀ (sizes : SizesArg) (base : Option Int),
      calculateTotalStock false sizes base = some (base.getD 0))
    ∧ (∀ (hs : Bool) (v : JVal) (base : Option Int),
      calculateTotalStock hs (.scalar v) base = some (base.getD 0))
    ∧ (∀ (hs : Bool) (base : Option Int),
      calculateTotalStock hs (.arr []) base = some (base.getD 0))
    ∧ (∀ (elems : List JVal) (base : Option Int), elems ≠ [] →
      (calculateTotalStock true (.arr elems) base = none
        ↔ ∃ v ∈ elems, v = .vnull ∨ v = .vundefined)
      ∧ ((∀ v ∈ elems, v ≠ .vnull ∧ v ≠ .vundefined) →
        calculateTotalStock true (.arr elems) base
          = some ((elems.map fun v => (jsParseInt (jsQuantityField v)).getD 0).sum))) := by
  refine ⟨?_, ?_, ?_, ?_⟩
  · intro sizes base
    cases sizes <;> simp [calculateTotalStock]
  · intro hs v base
    rfl
  · intro hs base
    cases hs <;> rfl
  · intro elems base hne
    have harr : calculateTotalStock true (.arr elems) base = sumQuantities elems := by
      cases elems with
      | nil => exact absurd rfl hne
      | cons a t => rfl
    rw [harr]
    exact ⟨sumQuantities_eq_none_iff elems, sumQuantities_eq_some elems⟩

/-- Closed instance of the amended C6 statement at concrete inputs,
obtained by applying `c6_calculateTotalStock_spec` itself. -/
theorem c6_calculateTotalStock_spec_witness :
    calculateTotalStock true
        (.arr [.vsize (.vstr "S") (.vnum 3), .vsize (.vstr "M") (.vnum 5)]) (some 9)
      = some 8 := by
  have h := (c6_calculateTotalStock_spec.2.2.2
    [.vsize (.vstr "S") (.vnum 3), .vsize (.vstr "M") (.vnum 5)] (some 9)
    (by decide)).2 (by decide)
  simpa using h

/-! Claim C8. -/

/-- C8 counterexample: with every other field well-formed and
`price = ""` (an empty — hence not "non-empty" — value), the code rejects
with the invalid-price reason, not the missing-required-fields reason the
claim's precedence predicts: the required-field check tests `price` only
with `=== undefined || === null`. -/
def c8Body : ProductBody :=
  { name := .vstr "camisa", sku := .vstr "SKU-1", cost := .vundefined, price := .vstr "",
    stock := some 0, category := .vstr "basicos", productType := .vstr "ropa",
    barcode := .vundefined, minStock := .vundefined, hasSizes := .vbool false,
    sizeType := .vundefined, sizes := none }

/-- C8 counterexample theorem: an empty-string price is not rejected as
"missing required fields" but as "Precio inválido". -/
theorem c8_counterexample :
    c8Body.price = .vstr ""
    ∧ validateProductData c8Body = .invalid "Precio inválido"
    ∧ "Precio inválido"
        ≠ "Campos obligatorios faltantes (name, sku, price, category, productType)" :=
  ⟨rfl, rfl, by decide⟩

/-- Modelled from the spec's rule list as amended: rule 1 (required fields,
with `name`, `sku`, `category`, `productType` tested for emptiness by JS
truthiness but `price` tested only for undefined/null), then rule 2
(product type enum), then rule 3 (price parses and is strictly positive),
then rule 4 (a supplied non-empty cost parses and is non-negative), first
matching rule wins, else valid. -/
def specValidateProductData (d : ProductBody) : ValidationResult :=
  if ¬(d.name.truthy ∧ d.sku.truthy ∧ d.category.truthy ∧ d.productType.truthy)
      ∨ d.price.isUndefinedV ∨ d.price.isNull then
    .invalid "Campos obligatorios faltantes (name, sku, price, category, productType)"
  else if d.productType.eqStr "ropa" = false ∧ d.productType.eqStr "otros" = false then
    .invalid "productType inválido"
  else if ((jsParseFloat d.price).any fun p => 0 < p) = false then
    .invalid "Precio inválido"
  else if ¬(d.cost.isUndefinedV ∨ d.cost.isNull ∨ d.cost.isEmptyStr)
      ∧ ((jsParseFloat d.cost).any fun c => 0 ≤ c) = false then
    .invalid "Costo inválido"
  else .valid

/-- Cost rule of the source and of the amended rule list agree for every
runtime value of `cost`. -/
lemma costBranch_eq (cost : JVal) :
    (if (cost.isUndefinedV || cost.isNull || cost.isEmptyStr) = true then ValidationResult.valid
     else match jsParseFloat cost with
       | none => ValidationResult.invalid "Costo inválido"
       | some parsedCost =>
         if parsedCost < 0 then ValidationResult.invalid "Costo inválido"
         else ValidationResult.valid)
    = (if ¬(cost.isUndefinedV = true ∨ cost.isNull = true ∨ cost.isEmptyStr = true)
          ∧ (Option.any (fun c => decide (0 ≤ c)) (jsParseFloat cost)) = false then
        ValidationResult.invalid "Costo inválido"
      else ValidationResult.valid) := by
  by_cases h4 : (cost.isUndefinedV || cost.isNull || cost.isEmptyStr) = true
  · have h4' : cost.isUndefinedV = true ∨ cost.isNull = true ∨ cost.isEmptyStr = true := by
      rcases (Bool.or_eq_true _ _).mp h4 with h | h
      · rcases (Bool.or_eq_true _ _).mp h with h1 | h1
        · exact Or.inl h1
        · exact Or.inr (Or.inl h1)
      · exact Or.inr (Or.inr h)
    rw [if_pos h4, if_neg]
    rintro ⟨hno, _⟩
    exact hno h4'
  · have h4n : ¬(cost.isUndefinedV = true ∨ cost.isNull = true ∨ cost.isEmptyStr = true) := by
      rintro (h | h | h) <;> exact h4 (by simp [h])
    rw [if_neg h4]
    rcases hc : jsParseFloat cost with _ | c
    · rw [if_pos ⟨h4n, by simp [Option.any]⟩]
    · dsimp only
      by_cases hcneg : c < 0
      · rw [if_pos hcneg, if_pos ⟨h4n, by simp [Option.any, not_le.mpr hcneg]⟩]
      · rw [if_neg hcneg, if_neg]
        rintro ⟨_, hany⟩
        simp [Option.any, not_lt.mp hcneg] at hany

/-- C8 (amended): `validateProductData` applies the four rules in the
stated precedence order with the first matching rule's specific rejection,
where the required-field rule tests `name`, `sku`, `category` and
`productType` for truthiness but `price` only for undefined/null (so an
empty-string price falls through to the invalid-price rule); it is a pure
function of its input.  Stated as a refinement against
`specValidateProductData`, which is written from the amended rule list. -/
theorem c8_validateProductData_spec (d : ProductBody) :
    validateProductData d = specValidateProductData d := by
  unfold validateProductData specValidateProductData
  refine if_congr ?_ rfl (if_congr ?_ rfl ?_)
  · constructor
    · intro h
      simp only [Bool.or_eq_true, Bool.not_eq_true'] at h
      rcases h with ((((h | h) | h) | h) | h) | h
      · exact Or.inl fun hc => by simp [hc.1] at h
      · exact Or.inl fun hc => by simp [hc.2.1] at h
      · exact Or.inr (Or.inl h)
      · exact Or.inr (Or.inr h)
      · exact Or.inl fun hc => by simp [hc.2.2.1] at h
      · exact Or.inl fun hc => by simp [hc.2.2.2] at h
    · intro h
      simp only [Bool.or_eq_true, Bool.not_eq_true']
      rcases h with h | h | h
      · by_cases hn : d.name.truthy
        · by_cases hs : d.sku.truthy
          · by_cases hc : d.category.truthy
            · by_cases ht : d.productType.truthy
              · exact absurd ⟨hn, hs, hc, ht⟩ h
              · simp [ht]
            · simp [hc]
          · simp [hs]
        · simp [hn]
      · simp [h]
      · simp [h]
  · constructor
    · intro h
      simp only [Bool.not_eq_true', Bool.or_eq_false_iff] at h
      exact h
    · intro h
      simp [h.1, h.2]
  · rcases hp : jsParseFloat d.price with _ | p
    · simp [Option.any]
    · by_cases hple : p ≤ 0
      · simp [hple, Option.any, not_lt.mpr hple]
      · have hpos : (Option.any (fun q => decide (0 < q)) (some p)) = true := by
          simp [Option.any, lt_of_not_le hple]
        have hnotfalse : ¬((Option.any (fun q => decide (0 < q)) (some p)) = false) := by
          simp [hpos]
        dsimp only
        rw [if_neg hple, if_neg hnotfalse]
        exact costBranch_eq d.cost

/-! Claim C4. -/

/-- Request body whose price is the unparsable string "abc": it violates the
price validation rule. -/
def c4Body : ProductBody :=
  { name := .vstr "polo", sku := .vstr "SKU-9", cost := .vundefined, price := .vstr "abc",
    stock := some 5, category := .vstr "basicos", productType := .vstr "ropa",
    barcode := .vundefined, minStock := .vundefined, hasSizes := .vbool false,
    sizeType := .vundefined, sizes := none }

/-- The same product with a well-formed price, used to populate the store
before the update. -/
def c4ValidBody : ProductBody := { c4Body with price := .vstr "10" }

/-- Store holding one product (id 0) created through the validated create
path. -/
def c4State : InvState := (ctrlCreateProduct invInit c4ValidBody).2

/-- C4: the claim is right about the intended behaviour and the code is
wrong.  The create handler rejects the invalid-price body with the specific
reason and performs no write, but the update handler — whose own doc
comment says "Validates input" — never calls `validateProductData`: on the
same invalid body it performs the write, storing `parseFloat("abc") = NaN`
as the product's price. -/
theorem c4_update_path_skips_validation :
    validateProductData c4Body = .invalid "Precio inválido"
    ∧ ctrlCreateProduct c4State c4Body = (.badRequest "Precio inválido", c4State)
    ∧ (ctrlUpdateProduct c4State 0 c4Body).1 = .updated
    ∧ (ctrlUpdateProduct c4State 0 c4Body).2 ≠ c4State
    ∧ ((c4State.products.map fun p => p.price) = [some 10])
    ∧ (((ctrlUpdateProduct c4State 0 c4Body).2.products.map fun p => p.price) = [none]) :=
  ⟨rfl, rfl, rfl, by decide, rfl, rfl⟩

/-! Claim C1. -/

/-- Size-tracked create input carrying an empty variant list but a nonzero
fallback stock. -/
def c1cexInput : ProductInput :=
  { name := .vstr "gorra", sku := .vstr "SKU-2", cost := none, price := some 5,
    stock := 5, category := .vstr "ropa", productType := .vstr "ropa",
    barcode := .vundefined, minStock := .vundefined, hasSizes := true,
    sizeType := .vstr "letter", sizes := some [] }

/-- C1 counterexample: `createProduct` on a size-tracked input with an empty
variant list and fallback stock 5 stores a size-tracked product whose stock
is 5 while it owns no variant rows, so its stock differs from the sum (0)
of its size-variant rows. -/
theorem c1_counterexample :
    ((createProduct invInit c1cexInput).2.products.map fun p => (p.hasSizes, p.stock))
        = [(true, 5)]
    ∧ (createProduct invInit c1cexInput).2.productSizes = []
    ∧ sumSizesFor (createProduct invInit c1cexInput).2 (createProduct invInit c1cexInput).1
        = 0 :=
  ⟨rfl, rfl, rfl⟩

/-- A list is unchanged by mapping a function that fixes each element. -/
lemma map_eq_self_of_eq {α : Type} (l : List α) (f : α → α) (h : ∀ a ∈ l, f a = a) :
    l.map f = l := by
  induction l with
  | nil => rfl
  | cons a t ih =>
    rw [List.map_cons, h a (List.mem_cons_self a t),
      ih fun b hb => h b (List.mem_cons_of_mem a hb)]

/-- Variant rows freshly inserted for `pid` after rows that do not mention
`pid` sum to the coerced quantities of the inserted list. -/
lemma sum_filter_append_fresh (rows : List SizeRow) (pid : Nat) (l : List SizeInput)
    (h : ∀ r ∈ rows, r.productId ≠ pid) :
    (((rows ++ l.map fun sz =>
        ({ productId := pid, size := sz.size,
           quantity := coercedQuantity sz.quantity } : SizeRow)).filter
      fun r => r.productId = pid).map SizeRow.quantity).sum = variantSum l := by
  rw [List.filter_append]
  have h1 : rows.filter (fun r => decide (r.productId = pid)) = [] := by
    rw [List.filter_eq_nil_iff]
    intro r hr
    simp [h r hr]
  have h2 : ((l.map fun sz =>
      ({ productId := pid, size := sz.size,
         quantity := coercedQuantity sz.quantity } : SizeRow)).filter
        fun r => decide (r.productId = pid))
      = l.map fun sz =>
        ({ productId := pid, size := sz.size,
           quantity := coercedQuantity sz.quantity } : SizeRow) := by
    rw [List.filter_eq_self]
    intro r hr
    rcases List.mem_map.mp hr with ⟨sz, _, rfl⟩
    simp
  rw [h1, h2, List.nil_append, List.map_map]
  rfl

/-- After `updateStockBySize`, every product row carrying the operated id
holds exactly the sum of the variant rows for that id (shared by the C1 and
C9 developments). -/
lemma updateStockBySize_stock_eq_sum (s : InvState) (pid : Nat) (sz : String) (q : Int) :
    ∀ p ∈ (updateStockBySize s pid sz q).products, p.id = pid →
      p.stock = sumSizesFor (updateStockBySize s pid sz q) pid := by
  intro p hp hid
  simp only [updateStockBySize, List.mem_map] at hp
  obtain ⟨p0, _, rfl⟩ := hp
  by_cases h : p0.id = pid
  · simp only [if_pos h]
    rfl
  · rw [if_neg h] at hid ⊢
    exact absurd hid h

/-- C1 (amended): a size-tracked product's stored aggregate stock equals
the sum of its size-variant rows after `createProduct` or `updateProduct`
whenever the input carries a non-empty variant list (for `createProduct`
under freshness of the generated id), and unconditionally after
`updateStockBySize`; when a size-tracked create carries an empty or absent
variant list the stored stock is the fallback base stock while no variant
rows exist, so the equality can fail there (see the counterexample). -/
theorem c1_stock_reconciliation :
    (∀ (s : InvState) (d : ProductInput) (l : List SizeInput),
      d.hasSizes = true → d.sizes = some l → l ≠ [] →
      (∀ r ∈ s.productSizes, r.productId ≠ s.nextId) →
      (∀ p ∈ s.products, p.id ≠ s.nextId) →
      ∀ p ∈ (createProduct s d).2.products, p.id = (createProduct s d).1 →
        p.stock = sumSizesFor (createProduct s d).2 p.id)
    ∧ (∀ (s : InvState) (pid : Nat) (d : ProductInput) (l : List SizeInput),
      d.hasSizes = true → d.sizes = some l → l ≠ [] →
      ∀ p ∈ (updateProduct s pid d).products, p.id = pid →
        p.stock = sumSizesFor (updateProduct s pid d) pid)
    ∧ (∀ (s : InvState) (pid : Nat) (sz : String) (q : Int),
      ∀ p ∈ (updateStockBySize s pid sz q).products, p.id = pid →
        p.stock = sumSizesFor (updateStockBySize s pid sz q) pid) := by
  refine ⟨?_, ?_, fun s pid sz q => updateStockBySize_stock_eq_sum s pid sz q⟩
  · intro s d l hs hsz hl hfreshRows hfreshIds p hp hid
    have hcond : d.hasSizes ∧ l ≠ [] := ⟨hs, hl⟩
    have hres : createProduct s d = (s.nextId, insertSizeVariants
        { products := s.products
            ++ [newProductRow s.nextId d (totalStockOfInput d.hasSizes (some l) d.stock)],
          productSizes := s.productSizes, nextId := s.nextId + 1 } s.nextId l) := by
      unfold createProduct
      rw [hsz]
      dsimp only
      rw [if_pos hcond]
    rw [hres] at hp hid
    simp only [insertSizeVariants, List.mem_append, List.mem_singleton] at hp
    rcases hp with hp | hp
    · exact absurd hid (hfreshIds p hp)
    · subst hp
      rw [hid, hres]
      show totalStockOfInput d.hasSizes (some l) d.stock = _
      simp only [totalStockOfInput]
      rw [if_pos hcond]
      unfold sumSizesFor insertSizeVariants
      exact (sum_filter_append_fresh s.productSizes s.nextId l hfreshRows).symm
  · intro s pid d l hs hsz hl p hp hid
    have hcond : d.hasSizes ∧ l ≠ [] := ⟨hs, hl⟩
    simp only [updateProduct, hsz, if_pos hcond] at hp ⊢
    simp only [insertSizeVariants, List.mem_map] at hp
    rcases hp with ⟨p0, _, rfl⟩
    by_cases h : p0.id = pid
    · simp only [if_pos h, updatedRow]
      simp only [totalStockOfInput]
      rw [if_pos hcond]
      unfold sumSizesFor insertSizeVariants
      dsimp only
      refine (sum_filter_append_fresh _ pid l ?_).symm
      intro r hr
      have := List.of_mem_filter hr
      simpa using this
    · rw [if_neg h] at hid
      exact absurd hid h

/-- Demonstration store: the size-tracked round-trip product of the spec's
testable properties (variants S=3, M=5), created into an empty store. -/
def rtCreateInput : ProductInput :=
  { name := .vstr "polo", sku := .vstr "SKU-1", cost := none, price := some 10,
    stock := 0, category := .vstr "ropa", productType := .vstr "ropa",
    barcode := .vundefined, minStock := .vundefined, hasSizes := true,
    sizeType := .vstr "letter",
    sizes := some [{ size := "S", quantity := .vnum 3 }, { size := "M", quantity := .vnum 5 }] }

/-- Update input replacing the variants with S=0, L=2. -/
def rtUpdateInput : ProductInput :=
  { rtCreateInput with
    sizes := some [{ size := "S", quantity := .vnum 0 }, { size := "L", quantity := .vnum 2 }] }

/-- Store after creating the round-trip product (its id is 0). -/
def rtState1 : InvState := (createProduct invInit rtCreateInput).2

/-- Store after replacing the round-trip product's variants. -/
def rtState2 : InvState := updateProduct rtState1 0 rtUpdateInput

/-- Closed instance of `c1_stock_reconciliation` (its `updateStockBySize`
part) at a concrete store: after adding 2 to size S of the round-trip
product, the stored stock coincides with the variant-row sum. -/
theorem c1_stock_reconciliation_witness :
    ((updateStockBySize rtState1 0 "S" 2).products.get ⟨0, by decide⟩).stock
      = sumSizesFor (updateStockBySize rtState1 0 "S" 2) 0 := by
  have h := c1_stock_reconciliation.2.2 rtState1 0 "S" 2
    ((updateStockBySize rtState1 0 "S" 2).products.get ⟨0, by decide⟩)
    (List.get_mem _ _ _)
    (by decide)
  simpa using h

/-! Claim C5. -/

/-- Variant rows freshly inserted for `pid` are exactly what a
`pid`-filter recovers when the preceding rows do not mention `pid`. -/
lemma filter_append_fresh (rows : List SizeRow) (pid : Nat) (l : List SizeInput)
    (h : ∀ r ∈ rows, r.productId ≠ pid) :
    ((rows ++ l.map fun sz =>
        ({ productId := pid, size := sz.size,
           quantity := coercedQuantity sz.quantity } : SizeRow)).filter
      fun r => r.productId = pid)
      = l.map fun sz =>
        ({ productId := pid, size := sz.size,
           quantity := coercedQuantity sz.quantity } : SizeRow) := by
  rw [List.filter_append]
  have h1 : rows.filter (fun r => decide (r.productId = pid)) = [] := by
    rw [List.filter_eq_nil_iff]
    intro r hr
    simp [h r hr]
  have h2 : ((l.map fun sz =>
      ({ productId := pid, size := sz.size,
         quantity := coercedQuantity sz.quantity } : SizeRow)).filter
        fun r => decide (r.productId = pid))
      = l.map fun sz =>
        ({ productId := pid, size := sz.size,
           quantity := coercedQuantity sz.quantity } : SizeRow) := by
    rw [List.filter_eq_self]
    intro r hr
    rcases List.mem_map.mp hr with ⟨sz, _, rfl⟩
    simp
  rw [h1, h2, List.nil_append]

/-- C5: a size-tracked update with a non-empty variant list `l` leaves the
product owning exactly `l`'s rows (full replace, no merge — previously
stored variants absent from `l` are gone) with stock equal to `l`'s summed
quantities; concretely, the S=3/M=5 product reads back stock 8, and after
updating its variants to S=0/L=2 it reads back stock 2 with variants
exactly {L=2, S=0} — no M variant remains. -/
theorem c5_full_replace :
    (∀ (s : InvState) (pid : Nat) (d : ProductInput) (l : List SizeInput),
      d.hasSizes = true → d.sizes = some l → l ≠ [] →
      (((updateProduct s pid d).productSizes.filter fun r => r.productId = pid)
        = l.map fun sz =>
          ({ productId := pid, size := sz.size,
             quantity := coercedQuantity sz.quantity } : SizeRow))
      ∧ (∀ p ∈ (updateProduct s pid d).products, p.id = pid → p.stock = variantSum l))
    ∧ ((getProductWithSizes rtState1 0).map fun v => v.stock) = some 8
    ∧ ((getProductWithSizes rtState2 0).map fun v => (v.stock, v.sizes))
        = some (2, some [{ size := "L", quantity := 2 }, { size := "S", quantity := 0 }]) := by
  refine ⟨?_, by decide, by decide⟩
  intro s pid d l hs hsz hl
  have hcond : d.hasSizes ∧ l ≠ [] := ⟨hs, hl⟩
  constructor
  · simp only [updateProduct, hsz, if_pos hcond]
    unfold insertSizeVariants
    dsimp only
    refine filter_append_fresh _ pid l ?_
    intro r hr
    have := List.of_mem_filter hr
    simpa using this
  · intro p hp hid
    simp only [updateProduct, hsz, if_pos hcond] at hp
    simp only [insertSizeVariants, List.mem_map] at hp
    rcases hp with ⟨p0, _, rfl⟩
    by_cases h : p0.id = pid
    · simp only [if_pos h, updatedRow]
      simp only [totalStockOfInput]
      rw [if_pos hcond]
    · rw [if_neg h] at hid
      exact absurd hid h

/-- Closed instance of `c5_full_replace` at the round-trip update: the rows
stored for product 0 are exactly S=0 and L=2. -/
theorem c5_full_replace_witness :
    ((updateProduct rtState1 0 rtUpdateInput).productSizes.filter fun r => r.productId = 0)
      = [{ productId := 0, size := "S", quantity := 0 },
         { productId := 0, size := "L", quantity := 2 }] := by
  have h := (c5_full_replace.1 rtState1 0 rtUpdateInput
    [{ size := "S", quantity := .vnum 0 }, { size := "L", quantity := .vnum 2 }]
    rfl rfl (by decide)).1
  simpa using h

/-! Claim C7. -/

/-- C7: `updateStockSimple` adds exactly `d` to the stock of the matching
non-size-tracked product and changes none of its other fields (the record
update in the conclusion fixes every other field), while a size-tracked
product — or any other product — is left entirely unchanged; the guard sits
in the write predicate of the single `UPDATE` itself. -/
theorem c7_updateStockSimple_guarded :
    ∀ (s : InvState) (pid : Nat) (d : Int),
      (updateStockSimple s pid d).productSizes = s.productSizes
      ∧ (updateStockSimple s pid d).nextId = s.nextId
      ∧ (updateStockSimple s pid d).products.length = s.products.length
      ∧ ∀ (i : Nat) (h : i < s.products.length)
          (h2 : i < (updateStockSimple s pid d).products.length),
        (((s.products.get ⟨i, h⟩).id = pid ∧ (s.products.get ⟨i, h⟩).hasSizes = false) →
          (updateStockSimple s pid d).products.get ⟨i, h2⟩
            = { s.products.get ⟨i, h⟩ with
                stock := (s.products.get ⟨i, h⟩).stock + d })
        ∧ ((s.products.get ⟨i, h⟩).hasSizes = true →
          (updateStockSimple s pid d).products.get ⟨i, h2⟩ = s.products.get ⟨i, h⟩)
        ∧ ((s.products.get ⟨i, h⟩).id ≠ pid →
          (updateStockSimple s pid d).products.get ⟨i, h2⟩ = s.products.get ⟨i, h⟩) := by
  intro s pid d
  refine ⟨rfl, rfl, by simp [updateStockSimple], ?_⟩
  intro i h h2
  have hg : (updateStockSimple s pid d).products.get ⟨i, h2⟩
      = if (s.products.get ⟨i, h⟩).id = pid ∧ (s.products.get ⟨i, h⟩).hasSizes = false
        then { s.products.get ⟨i, h⟩ with stock := (s.products.get ⟨i, h⟩).stock + d }
        else s.products.get ⟨i, h⟩ := by
    simp [updateStockSimple, List.get_eq_getElem, List.getElem_map]
  rw [hg]
  refine ⟨fun hc => by rw [if_pos hc], fun hsz => ?_, fun hne => ?_⟩
  · rw [if_neg]
    rintro ⟨_, hfalse⟩
    rw [hsz] at hfalse
    cases hfalse
  · rw [if_neg]
    rintro ⟨hc, _⟩
    exact hne hc

/-- Non-size-tracked demo product (id 0, stock 7) in a store of its own. -/
def simpleInput : ProductInput :=
  { name := .vstr "agua", sku := .vstr "SKU-3", cost := none, price := some 3,
    stock := 7, category := .vstr "bebidas", productType := .vstr "otros",
    barcode := .vundefined, minStock := .vundefined, hasSizes := false,
    sizeType := .vundefined, sizes := none }

/-- Store holding only the non-size-tracked demo product. -/
def simpleDemo : InvState := (createProduct invInit simpleInput).2

/-- Closed instance of `c7_updateStockSimple_guarded`: the concrete
non-size-tracked product's row after a +3 delta is the old row with stock
increased by 3. -/
theorem c7_updateStockSimple_guarded_witness :
    (updateStockSimple simpleDemo 0 3).products.get ⟨0, by decide⟩
      = { simpleDemo.products.get ⟨0, by decide⟩ with
          stock := (simpleDemo.products.get ⟨0, by decide⟩).stock + 3 } :=
  ((c7_updateStockSimple_guarded simpleDemo 0 3).2.2.2 0 (by decide) (by decide)).1
    (by decide)

/-! Claim C9. -/

/-- C9: `updateStockBySize` always overwrites the product's stock with the
sum of its variant rows; when no row matches the size label the variant
table is untouched (so the sum is over unchanged quantities); and on a
product with no variant rows at all — the predicate carries no size-tracked
guard — the stock is set to 0. -/
theorem c9_updateStockBySize_unguarded :
    (∀ (s : InvState) (pid : Nat) (sz : String) (q : Int),
      ∀ p ∈ (updateStockBySize s pid sz q).products, p.id = pid →
        p.stock = sumSizesFor (updateStockBySize s pid sz q) pid)
    ∧ (∀ (s : InvState) (pid : Nat) (sz : String) (q : Int),
      (∀ r ∈ s.productSizes, ¬(r.productId = pid ∧ r.size = sz)) →
        (updateStockBySize s pid sz q).productSizes = s.productSizes)
    ∧ (∀ (s : InvState) (pid : Nat) (sz : String) (q : Int),
      (∀ r ∈ s.productSizes, r.productId ≠ pid) →
        ∀ p ∈ (updateStockBySize s pid sz q).products, p.id = pid → p.stock = 0) := by
  refine ⟨fun s pid sz q => updateStockBySize_stock_eq_sum s pid sz q, ?_, ?_⟩
  · intro s pid sz q hnone
    show (s.productSizes.map fun r =>
        if r.productId = pid ∧ r.size = sz then { r with quantity := r.quantity + q }
        else r) = s.productSizes
    refine map_eq_self_of_eq _ _ fun r hr => ?_
    rw [if_neg (hnone r hr)]
  · intro s pid sz q hnone p hp hid
    rw [updateStockBySize_stock_eq_sum s pid sz q p hp hid]
    show ((((s.productSizes.map fun r =>
        if r.productId = pid ∧ r.size = sz then { r with quantity := r.quantity + q }
        else r).filter fun r => r.productId = pid).map SizeRow.quantity)).sum = 0
    have hfil : ((s.productSizes.map fun r =>
        if r.productId = pid ∧ r.size = sz then { r with quantity := r.quantity + q }
        else r).filter fun r => decide (r.productId = pid)) = [] := by
      rw [List.filter_eq_nil_iff]
      intro r hr
      rcases List.mem_map.mp hr with ⟨r0, hr0, rfl⟩
      by_cases hc : r0.productId = pid ∧ r0.size = sz
      · exact absurd hc.1 (hnone r0 hr0)
      · rw [if_neg hc]
        simp [hnone r0 hr0]
    rw [hfil]
    rfl

/-- Closed instance of `c9_updateStockBySize_unguarded`: on the concrete
non-size-tracked product with stock 7 and no variant rows, the call zeroes
the stock. -/
theorem c9_updateStockBySize_unguarded_witness :
    ((updateStockBySize simpleDemo 0 "M" 3).products.get ⟨0, by decide⟩).stock = 0
    ∧ (simpleDemo.products.get ⟨0, by decide⟩).hasSizes = false
    ∧ (simpleDemo.products.get ⟨0, by decide⟩).stock = 7 :=
  ⟨c9_updateStockBySize_unguarded.2.2 simpleDemo 0 "M" 3 (by decide) _
      (List.get_mem _ _ _) (by decide),
    by decide, by decide⟩

/-! Claim C2. -/

/-- One request can only lower a user's number of Open registers or raise it
from zero to one. -/
lemma applyOp_openCount_le (s : CashState) (op : CashOp) (u : String)
    (h : openCountFor s u ≤ 1) : openCountFor (applyOp s op) u ≤ 1 := by
  cases op with
  | openR u2 b =>
    by_cases hcnd : 0 < (openRegistersFor s u2).length
    · simp only [applyOp, openRegister, if_pos hcnd]
      exact h
    · simp only [applyOp, openRegister, if_neg hcnd]
      simp only [openCountFor, openRegistersFor, List.filter_append, List.length_append]
      have h0 : (openRegistersFor s u2).length = 0 := by omega
      simp only [openRegistersFor] at h0
      by_cases hu : u2 = u
      · subst hu
        simp
        intro a ha hau
        have := List.filter_eq_nil_iff.mp (List.length_eq_zero.mp h0) a ha
        simpa [hau] using this
      · have hone : ((s.registers.filter fun r =>
            r.userId == u && r.status == RegStatus.abierta)).length ≤ 1 := h
        simp [hu]
        omega
  | closeR u2 cb eb =>
    rcases hm : openRegistersFor s u2 with _ | ⟨r0, rest⟩
    · simp only [applyOp, closeRegister, hm]
      exact h
    · simp only [applyOp, closeRegister, hm]
      show ((s.registers.map fun r =>
          if r.id = r0.id then closedRegister r u2 cb eb s.now else r).filter _).length ≤ 1
      rw [← List.countP_eq_length_filter, List.countP_map]
      have hmono : List.countP
          ((fun r => r.userId == u && r.status == RegStatus.abierta) ∘ fun r =>
            if r.id = r0.id then closedRegister r u2 cb eb s.now else r) s.registers
          ≤ List.countP (fun r => r.userId == u && r.status == RegStatus.abierta)
              s.registers := by
        refine List.countP_mono_left fun r hr hp => ?_
        show (r.userId == u && r.status == RegStatus.abierta) = true
        by_cases hid : r.id = r0.id
        · rw [Function.comp_apply, if_pos hid] at hp
          simp [closedRegister] at hp
        · rw [Function.comp_apply, if_neg hid] at hp
          exact hp
      refine le_trans hmono ?_
      rw [List.countP_eq_length_filter]
      exact h
  | moveR u2 ty a c =>
    rcases hm : openRegistersFor s u2 with _ | ⟨r0, rest⟩ <;>
      simp only [applyOp, addMovement, hm] <;> exact h

/-- Every state reached from the empty store keeps at most one Open
register per user. -/
lemma runOps_openCount_le (ops : List CashOp) : ∀ (s : CashState),
    (∀ u, openCountFor s u ≤ 1) → ∀ u, openCountFor (ops.foldl applyOp s) u ≤ 1 := by
  induction ops with
  | nil => exact fun s h => h
  | cons op t ih =>
    exact fun s h => ih (applyOp s op) fun u => applyOp_openCount_le s op u (h u)

/-- C2: in every state reachable by open/close/add-movement traces from the
empty store, each user has at most one Open register; `openRegister` fails
with the already-open error whenever an Open register exists for the user;
and no request ever turns a Closed register back to Open — a closed
register survives every request with its id, still Closed. -/
theorem c2_single_open_register :
    (∀ (ops : List CashOp) (u : String), openCountFor (runOps ops) u ≤ 1)
    ∧ (∀ (s : CashState) (u : String) (b : Rat),
      0 < openCountFor s u → openRegister s u b = .error "Ya tienes una caja abierta")
    ∧ (∀ (s : CashState) (op : CashOp) (r : Register), r ∈ s.registers →
      r.status = RegStatus.cerrada →
      ∃ r2 ∈ (applyOp s op).registers, r2.id = r.id ∧ r2.status = RegStatus.cerrada) := by
  refine ⟨?_, ?_, ?_⟩
  · intro ops u
    exact runOps_openCount_le ops cashInit (fun u2 => Nat.zero_le 1) u
  · intro s u b h
    have h2 : 0 < (openRegistersFor s u).length := h
    unfold openRegister
    rw [if_pos h2]
  · intro s op r hr hc
    cases op with
    | openR u2 b =>
      by_cases hcnd : 0 < (openRegistersFor s u2).length
      · simp only [applyOp, openRegister, if_pos hcnd]
        exact ⟨r, hr, rfl, hc⟩
      · simp only [applyOp, openRegister, if_neg hcnd]
        exact ⟨r, List.mem_append_left _ hr, rfl, hc⟩
    | closeR u2 cb eb =>
      rcases hm : openRegistersFor s u2 with _ | ⟨r0, rest⟩
      · simp only [applyOp, closeRegister, hm]
        exact ⟨r, hr, rfl, hc⟩
      · simp only [applyOp, closeRegister, hm]
        refine ⟨if r.id = r0.id then closedRegister r u2 cb eb s.now else r,
          List.mem_map_of_mem _ hr, ?_⟩
        by_cases hid : r.id = r0.id
        · rw [if_pos hid]
          exact ⟨rfl, rfl⟩
        · rw [if_neg hid]
          exact ⟨rfl, hc⟩
    | moveR u2 ty a c =>
      rcases hm : openRegistersFor s u2 with _ | ⟨r0, rest⟩ <;>
        simp only [applyOp, addMovement, hm] <;> exact ⟨r, hr, rfl, hc⟩

/-- Store reached by opening one register for user u1. -/
def demoCash : CashState := runOps [CashOp.openR "u1" 100]

/-- Closed instance of `c2_single_open_register`: with u1's register open,
a second `openRegister` fails with the already-open error. -/
theorem c2_single_open_register_witness :
    0 < openCountFor demoCash "u1"
    ∧ openRegister demoCash "u1" 50 = .error "Ya tienes una caja abierta" :=
  ⟨by decide, c2_single_open_register.2.1 demoCash "u1" 50 (by decide)⟩

/-! Claim C3. -/

/-- C3: `closeRegister` fails (with the no-open-register error, and only
that error) exactly when the user has no Open register, and the failing
branch changes no stored state; on success nothing but the register table
changes, and the register table is rewritten by a single update that sets
the first Open register's status to Closed together with the closing
balance, expected balance, difference = closing − expected, closing user id
and closing timestamp (`closedRegister` is that column list), leaving every
other row unchanged; afterwards (from an at-most-one-open state) the user
has no Open register left, so an immediate second call fails. -/
theorem c3_closeRegister_contract :
    ∀ (s : CashState) (u : String) (cb eb : Rat),
      (openCountFor s u = 0 → closeRegister s u cb eb = .error "No tienes una caja abierta")
      ∧ (∀ msg, closeRegister s u cb eb = .error msg →
          msg = "No tienes una caja abierta" ∧ openCountFor s u = 0)
      ∧ (openCountFor s u = 0 →
          (applyOp s (.closeR u cb eb)).registers = s.registers
          ∧ (applyOp s (.closeR u cb eb)).movements = s.movements
          ∧ (applyOp s (.closeR u cb eb)).nextId = s.nextId)
      ∧ (∀ s2, closeRegister s u cb eb = .ok s2 →
          s2.movements = s.movements ∧ s2.nextId = s.nextId ∧ s2.now = s.now
          ∧ ∃ r0 ∈ s.registers, r0.userId = u ∧ r0.status = RegStatus.abierta
            ∧ s2.registers = s.registers.map fun r =>
                if r.id = r0.id then closedRegister r u cb eb s.now else r)
      ∧ (∀ s2, closeRegister s u cb eb = .ok s2 → openCountFor s u ≤ 1 →
          openCountFor s2 u = 0) := by
  intro s u cb eb
  rcases hm : openRegistersFor s u with _ | ⟨r0, rest⟩
  · have hcnt : openCountFor s u = 0 := by
      show (openRegistersFor s u).length = 0
      rw [hm]
      rfl
    refine ⟨?_, ?_, ?_, ?_, ?_⟩
    · intro _
      unfold closeRegister
      rw [hm]
    · intro msg hmsg
      unfold closeRegister at hmsg
      rw [hm] at hmsg
      exact ⟨(Except.error.inj hmsg).symm, hcnt⟩
    · intro _
      simp [applyOp, closeRegister, hm]
    · intro s2 h
      unfold closeRegister at h
      rw [hm] at h
      cases h
    · intro s2 h
      unfold closeRegister at h
      rw [hm] at h
      cases h
  · have hr0 : r0 ∈ s.registers ∧ (r0.userId == u && r0.status == RegStatus.abierta) = true :=
      List.mem_filter.mp (hm ▸ List.mem_cons_self r0 rest)
    have hu0 : r0.userId = u := by
      have := hr0.2
      simp only [Bool.and_eq_true, beq_iff_eq] at this
      exact this.1
    have hst0 : r0.status = RegStatus.abierta := by
      have := hr0.2
      simp only [Bool.and_eq_true, beq_iff_eq] at this
      exact this.2
    have hcnt : openCountFor s u ≠ 0 := by
      show (openRegistersFor s u).length ≠ 0
      rw [hm]
      simp
    refine ⟨fun h0 => absurd h0 hcnt, ?_, fun h0 => absurd h0 hcnt, ?_, ?_⟩
    · intro msg hmsg
      unfold closeRegister at hmsg
      rw [hm] at hmsg
      cases hmsg
    · intro s2 h
      unfold closeRegister at h
      rw [hm] at h
      have hs2 := Except.ok.inj h
      subst hs2
      exact ⟨rfl, rfl, rfl, r0, hr0.1, hu0, hst0, rfl⟩
    · intro s2 h hle
      unfold closeRegister at h
      rw [hm] at h
      have hs2 := Except.ok.inj h
      subst hs2
      have hrest : rest = [] := by
        have hlen : (openRegistersFor s u).length ≤ 1 := hle
        rw [hm] at hlen
        simp only [List.length_cons] at hlen
        exact List.length_eq_zero.mp (by omega)
      show (List.filter _ _).length = 0
      rw [List.length_eq_zero, List.filter_eq_nil_iff]
      intro r2 hr2
      rcases List.mem_map.mp hr2 with ⟨r, hrmem, rfl⟩
      by_cases hid : r.id = r0.id
      · rw [if_pos hid]
        simp [closedRegister]
      · rw [if_neg hid]
        intro hp
        have hrin : r ∈ openRegistersFor s u := List.mem_filter.mpr ⟨hrmem, hp⟩
        rw [hm, hrest] at hrin
        have : r = r0 := by simpa using hrin
        exact hid (this ▸ rfl)

/-- Closed instance of `c3_closeRegister_contract`: closing with no open
register fails with the no-open-register error. -/
theorem c3_closeRegister_contract_witness :
    openCountFor cashInit "u9" = 0
    ∧ closeRegister cashInit "u9" 1 2 = .error "No tienes una caja abierta" :=
  ⟨rfl, (c3_closeRegister_contract cashInit "u9" 1 2).1 rfl⟩

/-! Claim C10. -/

/-- Membership is preserved by sorted insertion. -/
lemma mem_insertSorted {α : Type} (le : α → α → Bool) (a x : α) (l : List α) :
    x ∈ insertSorted le a l ↔ x = a ∨ x ∈ l := by
  induction l with
  | nil => simp [insertSorted]
  | cons b t ih =>
    by_cases hle : le a b
    · simp [insertSorted, hle]
    · simp only [insertSorted, if_neg hle, List.mem_cons, ih]
      tauto

/-- Membership is preserved by the insertion sort. -/
lemma mem_insertionSortBy {α : Type} (le : α → α → Bool) (x : α) (l : List α) :
    x ∈ insertionSortBy le l ↔ x ∈ l := by
  induction l with
  | nil => simp [insertionSortBy]
  | cons b t ih =>
    simp [insertionSortBy, mem_insertSorted, ih]

/-- C10: both register-to-record mappings test the raw numeric column for
truthiness before parsing, so a stored `0` in `difference` (likewise
`closing_balance`, `expected_balance`) is returned as absent while any
nonzero stored value is returned as that number; and every record
`getCurrentRegister` or `getHistory` returns is one of these mappings
applied to a stored row. -/
theorem c10_zero_balance_absent :
    (∀ (r : Register) (n1 n2 : Option String),
      (r.difference = some 0 → (mapRegisterRow r).difference = none
        ∧ (mapHistoryRow r n1 n2).difference = none)
      ∧ (∀ x : Rat, r.difference = some x → x ≠ 0 →
        (mapRegisterRow r).difference = some x
          ∧ (mapHistoryRow r n1 n2).difference = some x)
      ∧ (r.closingBalance = some 0 → (mapRegisterRow r).closingBalance = none
        ∧ (mapHistoryRow r n1 n2).closingBalance = none)
      ∧ (∀ x : Rat, r.closingBalance = some x → x ≠ 0 →
        (mapRegisterRow r).closingBalance = some x
          ∧ (mapHistoryRow r n1 n2).closingBalance = some x)
      ∧ (r.expectedBalance = some 0 → (mapRegisterRow r).expectedBalance = none
        ∧ (mapHistoryRow r n1 n2).expectedBalance = none)
      ∧ (∀ x : Rat, r.expectedBalance = some x → x ≠ 0 →
        (mapRegisterRow r).expectedBalance = some x
          ∧ (mapHistoryRow r n1 n2).expectedBalance = some x))
    ∧ (∀ (s : CashState) (u : String) (v : CashRegisterView),
      getCurrentRegister s u = some v →
      ∃ r ∈ s.registers, r.status = RegStatus.abierta ∧ r.userId = u
        ∧ v = mapRegisterRow r)
    ∧ (∀ (s : CashState) (f : String → Option String) (v : CashRegisterView),
      v ∈ getHistory s f →
      ∃ r ∈ s.registers, r.status = RegStatus.cerrada
        ∧ v = mapHistoryRow r (f r.userId) (r.closedByUserId.bind f)) := by
  refine ⟨?_, ?_, ?_⟩
  · intro r n1 n2
    refine ⟨fun h => ?_, fun x h hx => ?_, fun h => ?_, fun x h hx => ?_,
      fun h => ?_, fun x h hx => ?_⟩
    · simp [mapRegisterRow, mapHistoryRow, numericOrAbsent, h]
    · simp [mapRegisterRow, mapHistoryRow, numericOrAbsent, h, hx]
    · simp [mapRegisterRow, mapHistoryRow, numericOrAbsent, h]
    · simp [mapRegisterRow, mapHistoryRow, numericOrAbsent, h, hx]
    · simp [mapRegisterRow, mapHistoryRow, numericOrAbsent, h]
    · simp [mapRegisterRow, mapHistoryRow, numericOrAbsent, h, hx]
  · intro s u v hv
    rcases hsort : insertionSortBy (fun a b => decide (b.openedAt ≤ a.openedAt))
        (openRegistersFor s u) with _ | ⟨r, rest⟩
    · rw [getCurrentRegister, hsort] at hv
      cases hv
    · rw [getCurrentRegister, hsort] at hv
      have hmem : r ∈ openRegistersFor s u := by
        rw [← mem_insertionSortBy (fun a b => decide (b.openedAt ≤ a.openedAt))]
        rw [hsort]
        exact List.mem_cons_self r rest
      have hprops := List.mem_filter.mp hmem
      have hps : r.userId = u ∧ r.status = RegStatus.abierta := by
        have := hprops.2
        simp only [Bool.and_eq_true, beq_iff_eq] at this
        exact this
      exact ⟨r, hprops.1, hps.2, hps.1, (Option.some.inj hv).symm⟩
  · intro s f v hv
    unfold getHistory at hv
    rcases List.mem_map.mp hv with ⟨r, hr, rfl⟩
    rw [mem_insertionSortBy] at hr
    have hprops := List.mem_filter.mp hr
    have hst : r.status = RegStatus.cerrada := by
      have := hprops.2
      simpa using this
    exact ⟨r, hprops.1, hst, rfl⟩

/-- Closed register row with a zero difference, zero expected balance and a
nonzero closing balance. -/
def demoReg : Register :=
  { id := 0, userId := "u1", openingBalance := 100, closingBalance := some 5,
    expectedBalance := some 0, difference := some 0, status := RegStatus.cerrada,
    openedAt := 0, closedAt := some 1, closedByUserId := some "u1" }

/-- Closed instance of `c10_zero_balance_absent`: the zero difference maps
to absent while the nonzero closing balance maps to its value. -/
theorem c10_zero_balance_absent_witness :
    (mapRegisterRow demoReg).difference = none
    ∧ (mapRegisterRow demoReg).closingBalance = some 5 :=
  ⟨((c10_zero_balance_absent.1 demoReg none none).1 rfl).1,
    ((c10_zero_balance_absent.1 demoReg none none).2.2.2.1 5 rfl (by decide)).1⟩

end POS
